import Mathlib

/-
Shallow embedding of the FastAPI + MySQL CRUD service in src/main.py.

The users table is a list of rows in insertion order together with the
auto-increment counter for the primary key. Each request handler becomes a
pure function from the request data and the current database state to a
result and the next database state. Timestamps (datetime.utcnow) are passed
in as an explicit parameter `now`. HTTP outcomes are an `ApiResult`: either
a success with a status code and a value, or an HTTPException with a status
code and a detail string.

The MySQL schema declared on the model (main.py lines 25-32) makes `name`
and `email` non-nullable and puts a unique index on `email`; a commit that
violates one of these raises, is caught by the generic handler, rolled back
and reported as a 500. The embedding models this commit-time behaviour
explicitly in `update_user`; `create_user` cannot hit it because its
application-level duplicate check is exact and its payload fields are
required strings.
-/

/-- Row of the `users` table (main.py lines 25-32). Timestamps are Nats. -/
structure User where
  id : Nat
  name : String
  email : String
  created_at : Nat
  updated_at : Nat
deriving DecidableEq, Repr

/-- Database state: the `users` table in insertion order plus the MySQL
auto-increment counter for `id`. -/
structure DB where
  users : List User
  next_id : Nat
deriving DecidableEq, Repr

/-- Fresh database right after `Base.metadata.create_all`. MySQL
auto-increment starts at 1. -/
def DB.empty : DB := ⟨[], 1⟩

/-- Payload of POST /users/ (Pydantic `UserCreate`, main.py lines 35-40):
both fields are required strings. -/
structure UserCreate where
  name : String
  email : String
deriving DecidableEq, Repr

/-- Payload of PUT /users/\x7buser_id\x7d (Pydantic `UserUpdate`, main.py
lines 42-44). Each field distinguishes three JSON shapes, which
`dict(exclude_unset=True)` keeps apart: `none` = key absent (unset),
`some none` = key present with value null, `some (some s)` = key present
with string value s. -/
structure UserUpdate where
  name : Option (Option String)
  email : Option (Option String)
deriving DecidableEq, Repr

/-- Outcome of a request handler: success with an HTTP status and a value,
or an HTTPException with an HTTP status and a detail string. -/
inductive ApiResult (α : Type) where
  | ok (status : Nat) (val : α)
  | err (status : Nat) (detail : String)
deriving DecidableEq, Repr

/-- Python truthiness of an optional string attribute: None and the empty
string are falsy, every other string is truthy. -/
def pyTruthyStr : Option String → Bool
  | none => false
  | some s => !(s == "")

/-- POST /users/ (main.py lines 121-146). Checks for an existing row with
the same email via `db.query(User).filter(User.email == user.email).first()`
and raises 400 if found; otherwise inserts a row whose id is the
auto-increment value and whose `created_at` and `updated_at` columns get
their default `datetime.utcnow`, and returns the row with status 201. -/
def create_user (now : Nat) (user : UserCreate) (db : DB) : ApiResult User × DB :=
  match db.users.find? (fun v => v.email == user.email) with
  | some _ => (.err 400 "Email already registered", db)
  | none =>
      let db_user : User :=
        { id := db.next_id, name := user.name, email := user.email,
          created_at := now, updated_at := now }
      (.ok 201 db_user, { users := db.users ++ [db_user], next_id := db.next_id + 1 })

/-- GET /users/ (main.py lines 148-159): `offset(skip).limit(limit)` over
the table in its natural order. -/
def get_users (skip : Nat) (limit : Nat) (db : DB) : List User :=
  (db.users.drop skip).take limit

/-- GET /users/\x7buser_id\x7d (main.py lines 161-179): first row with the
given id, or a 404. -/
def get_user (user_id : Nat) (db : DB) : ApiResult User :=
  match db.users.find? (fun v => v.id == user_id) with
  | none => .err 404 "User not found"
  | some u => .ok 200 u

/-- Replacement of the first row with the given id by an updated row;
models the in-place mutation of the single ORM object that
`db.query(User).filter(User.id == user_id).first()` returned. -/
def replaceFirstById (user_id : Nat) (u2 : User) : List User → List User
  | [] => []
  | v :: vs => if v.id == user_id then u2 :: vs else v :: replaceFirstById user_id u2 vs

/-- Fall-through tail of PUT /users/\x7buser_id\x7d (main.py lines 201-209):
applies `dict(exclude_unset=True)` — set fields overwrite, unset fields keep
the stored value — sets `updated_at` to now and commits. The commit raises
when a non-nullable column receives null or when the unique index on `email`
finds the new value on another physical row; the generic handler then rolls
back and reports 500. -/
def apply_update_fields (now user_id : Nat) (user_update : UserUpdate) (user : User)
    (db : DB) : ApiResult User × DB :=
  match user_update.name.getD (some user.name), user_update.email.getD (some user.email) with
  | some n, some e =>
      if (db.users.eraseP (fun v => v.id == user_id)).any (fun v => v.email == e) then
        (.err 500 "Internal server error", db)
      else
        let user2 : User := { user with name := n, email := e, updated_at := now }
        (.ok 200 user2, { db with users := replaceFirstById user_id user2 db.users })
  | _, _ => (.err 500 "Internal server error", db)

/-- PUT /users/\x7buser_id\x7d (main.py lines 181-218). Looks up the row by
id (404 if absent). The duplicate-email guard is
`if user_update.email and user_update.email != user.email`: the attribute
`user_update.email` is the flattened option (null and unset are both None),
and the Python truthiness test also skips the guard for the empty string.
If the guard fires and another row holds that email, raises 400 with no
change; otherwise control falls through to `apply_update_fields`. -/
def update_user (now : Nat) (user_id : Nat) (user_update : UserUpdate) (db : DB) :
    ApiResult User × DB :=
  match db.users.find? (fun v => v.id == user_id) with
  | none => (.err 404 "User not found", db)
  | some user =>
      if pyTruthyStr user_update.email.join &&
          !(user_update.email.join == some user.email) then
        if (db.users.find? (fun v => some v.email == user_update.email.join)).isSome then
          (.err 400 "Email already registered", db)
        else apply_update_fields now user_id user_update user db
      else apply_update_fields now user_id user_update user db

/-- DELETE /users/\x7buser_id\x7d (main.py lines 220-242): looks up the row
by id, 404 if absent, otherwise deletes that row and returns the
confirmation message. -/
def delete_user (user_id : Nat) (db : DB) : ApiResult String × DB :=
  match db.users.find? (fun v => v.id == user_id) with
  | none => (.err 404 "User not found", db)
  | some _ =>
      (.ok 200 "User deleted successfully",
        { db with users := db.users.eraseP (fun v => v.id == user_id) })

/-- Database part of the health payload (main.py lines 94-98 and 102-106).
The `type` key is only present on success, the `error` key only on
failure. -/
structure DbHealth where
  status : String
  message : String
  dbtype : Option String
  error : Option String
deriving DecidableEq, Repr

/-- Health payload built by `health_check` (main.py lines 82-109). -/
structure HealthStatus where
  timestamp : Nat
  app_status : String
  app_message : String
  database : DbHealth
  overall_status : String
deriving DecidableEq, Repr

/-- Outcome of GET /health: 200 with the payload, or an HTTPException 503
carrying the full payload as its detail. -/
inductive HealthResult where
  | healthy (payload : HealthStatus)
  | unavailable (detail : HealthStatus)
deriving DecidableEq, Repr

/-- GET /health (main.py lines 79-117). The outcome of the trivial query
`db.execute(text("SELECT 1"))` is passed in as `dbQuery`: `Except.ok` when
the database responds, `Except.error` with the exception text otherwise. -/
def health_check (now : Nat) (dbQuery : Except String Unit) : HealthResult :=
  match dbQuery with
  | .ok _ =>
      .healthy
        { timestamp := now, app_status := "healthy",
          app_message := "FastAPI is running",
          database :=
            { status := "healthy", message := "Database connection is working",
              dbtype := some "MySQL", error := none },
          overall_status := "healthy" }
  | .error e =>
      .unavailable
        { timestamp := now, app_status := "healthy",
          app_message := "FastAPI is running",
          database :=
            { status := "unhealthy", message := "Database connection failed",
              dbtype := none, error := some e },
          overall_status := "unhealthy" }

/-- Email uniqueness: no two rows of the table share an email value,
compared exactly as stored. -/
def EmailsUnique (db : DB) : Prop :=
  db.users.Pairwise (fun a b => a.email ≠ b.email)

instance (db : DB) : Decidable (EmailsUnique db) :=
  inferInstanceAs (Decidable (db.users.Pairwise _))

/-- States reachable from the fresh database by any sequence of create,
update and delete requests, executed sequentially. -/
inductive Reachable : DB → Prop where
  | init : Reachable DB.empty
  | step_create (now : Nat) (req : UserCreate) {db : DB} :
      Reachable db → Reachable (create_user now req db).2
  | step_update (now user_id : Nat) (upd : UserUpdate) {db : DB} :
      Reachable db → Reachable (update_user now user_id upd db).2
  | step_delete (user_id : Nat) {db : DB} :
      Reachable db → Reachable (delete_user user_id db).2

/-! Helper lemmas about the list operations used by the handlers. -/

theorem mem_replaceFirstById {user_id : Nat} {u2 w : User} :
    ∀ {l : List User}, w ∈ replaceFirstById user_id u2 l → w = u2 ∨ w ∈ l := by
  intro l
  induction l with
  | nil => simp [replaceFirstById]
  | cons v vs ih =>
      by_cases hv : v.id == user_id
      · simp only [replaceFirstById, hv, if_pos]
        intro hmem
        rcases List.mem_cons.mp hmem with h | h
        · exact Or.inl h
        · exact Or.inr (List.mem_cons_of_mem _ h)
      · simp only [replaceFirstById, hv, if_neg, Bool.false_eq_true, not_false_iff]
        intro hmem
        rcases List.mem_cons.mp hmem with h | h
        · exact Or.inr (by simp [h])
        · rcases ih h with h2 | h2
          · exact Or.inl h2
          · exact Or.inr (List.mem_cons_of_mem _ h2)

theorem pairwise_replaceFirstById {user_id : Nat} {u2 : User} :
    ∀ {l : List User},
      l.Pairwise (fun a b => a.email ≠ b.email) →
      (l.eraseP (fun v => v.id == user_id)).any (fun v => v.email == u2.email) = false →
      (replaceFirstById user_id u2 l).Pairwise (fun a b => a.email ≠ b.email) := by
  intro l
  induction l with
  | nil => simp [replaceFirstById]
  | cons v vs ih =>
      intro hp hany
      rcases List.pairwise_cons.mp hp with ⟨hhead, htail⟩
      by_cases hv : (v.id == user_id) = true
      · rw [List.eraseP_cons_of_pos (p := fun u : User => u.id == user_id) hv] at hany
        simp only [replaceFirstById, hv, if_pos]
        refine List.pairwise_cons.mpr ⟨?_, htail⟩
        intro w hw
        have := (List.any_eq_false.mp hany) w hw
        intro heq
        exact this (by simp [heq])
      · rw [List.eraseP_cons_of_neg (p := fun u : User => u.id == user_id) hv] at hany
        rw [List.any_cons] at hany
        have hvne : (v.email == u2.email) = false := by
          cases h : (v.email == u2.email) <;> simp [h] at hany ⊢
        have hrest : (vs.eraseP (fun u => u.id == user_id)).any
            (fun u => u.email == u2.email) = false := by
          cases h : (vs.eraseP (fun u => u.id == user_id)).any
              (fun u => u.email == u2.email) <;> simp [h, hvne] at hany ⊢
        simp only [replaceFirstById, hv, if_neg, Bool.false_eq_true, not_false_iff]
        refine List.pairwise_cons.mpr ⟨?_, ih htail hrest⟩
        intro w hw
        rcases mem_replaceFirstById hw with h | h
        · subst h
          exact fun heq => by simp [heq] at hvne
        · exact hhead w h

theorem rel_eraseP_of_find? {R : User → User → Prop} (hsymm : ∀ a b, R a b → R b a)
    {p : User → Bool} {u : User} :
    ∀ {l : List User}, l.Pairwise R → l.find? p = some u →
      ∀ w ∈ l.eraseP p, R u w := by
  intro l
  induction l with
  | nil => intro _ hf; simp at hf
  | cons v vs ih =>
      intro hp hf
      rcases List.pairwise_cons.mp hp with ⟨hhead, htail⟩
      by_cases hv : p v = true
      · rw [List.find?_cons_of_pos _ hv] at hf
        rw [List.eraseP_cons_of_pos (p := p) hv]
        cases hf
        exact hhead
      · rw [List.find?_cons_of_neg _ hv] at hf
        rw [List.eraseP_cons_of_neg (p := p) hv]
        intro w hw
        rcases List.mem_cons.mp hw with h | h
        · subst h
          exact hsymm _ _ (hhead u (List.mem_of_find?_eq_some hf))
        · exact ih htail hf w h

/-! Preservation of the email-uniqueness invariant by each mutating handler. -/

theorem emailsUnique_create (now : Nat) (req : UserCreate) (db : DB)
    (h : EmailsUnique db) : EmailsUnique (create_user now req db).2 := by
  unfold create_user
  cases hf : db.users.find? (fun v => v.email == req.email) with
  | some u => exact h
  | none =>
      show ((db.users ++ [_]).Pairwise _)
      rw [List.pairwise_append]
      refine ⟨h, List.pairwise_singleton _ _, ?_⟩
      intro a ha b hb
      rcases List.mem_singleton.mp hb with rfl
      have := List.find?_eq_none.mp hf a ha
      exact fun heq => this (by simp [heq])

theorem emailsUnique_apply_update (now user_id : Nat) (upd : UserUpdate) (user : User)
    (db : DB) (h : EmailsUnique db) :
    EmailsUnique (apply_update_fields now user_id upd user db).2 := by
  unfold apply_update_fields
  cases hn : upd.name.getD (some user.name) with
  | none => exact h
  | some n =>
      cases he : upd.email.getD (some user.email) with
      | none => exact h
      | some e =>
          cases ha : (db.users.eraseP (fun v => v.id == user_id)).any
              (fun v => v.email == e) with
          | true => simp only [ha, if_true]; exact h
          | false =>
              simp only [ha, Bool.false_eq_true, if_false]
              exact pairwise_replaceFirstById h ha

theorem emailsUnique_update (now user_id : Nat) (upd : UserUpdate) (db : DB)
    (h : EmailsUnique db) : EmailsUnique (update_user now user_id upd db).2 := by
  unfold update_user
  split
  · exact h
  · rename_i user heq
    split
    · split
      · exact h
      · exact emailsUnique_apply_update now user_id upd user db h
    · exact emailsUnique_apply_update now user_id upd user db h

theorem emailsUnique_delete (user_id : Nat) (db : DB)
    (h : EmailsUnique db) : EmailsUnique (delete_user user_id db).2 := by
  unfold delete_user
  cases hf : db.users.find? (fun v => v.id == user_id) with
  | none => exact h
  | some u =>
      show ((db.users.eraseP _).Pairwise _)
      exact h.sublist (List.eraseP_sublist _)

/-- C1: in every state reachable by any sequence of create, update and
delete operations executed sequentially, no two stored users share the same
email value, compared case-sensitively as stored; every operation preserves
this invariant. -/
theorem email_uniqueness_invariant (db : DB) (h : Reachable db) : EmailsUnique db := by
  induction h with
  | init => exact List.Pairwise.nil
  | step_create now req _ ih => exact emailsUnique_create now req _ ih
  | step_update now user_id upd _ ih => exact emailsUnique_update now user_id upd _ ih
  | step_delete user_id _ ih => exact emailsUnique_delete user_id _ ih

/-- Witness for C1 at a concrete reachable state. -/
theorem email_uniqueness_invariant_witness :
    EmailsUnique (create_user 5 ⟨"alice", "alice@example.com"⟩ DB.empty).2 :=
  email_uniqueness_invariant _
    (Reachable.step_create 5 ⟨"alice", "alice@example.com"⟩ Reachable.init)

/-- C2: for every state and every create request whose email equals the
email of some existing user, create fails with the 400 conflict client
error and the stored users table is unchanged (row count unchanged). -/
theorem create_duplicate_email_conflict (now : Nat) (req : UserCreate) (db : DB)
    (h : ∃ u ∈ db.users, u.email = req.email) :
    create_user now req db = (.err 400 "Email already registered", db) ∧
    (create_user now req db).2.users.length = db.users.length := by
  obtain ⟨u, hu, he⟩ := h
  have hf : (db.users.find? (fun v => v.email == req.email)).isSome :=
    List.find?_isSome.mpr ⟨u, hu, by simp [he]⟩
  unfold create_user
  cases hfind : db.users.find? (fun v => v.email == req.email) with
  | none => rw [hfind] at hf; simp at hf
  | some w => exact ⟨rfl, rfl⟩

/-- Witness for C2: a duplicate create against a one-row table. -/
theorem create_duplicate_email_conflict_witness :
    create_user 3 ⟨"bob", "a@x"⟩ ⟨[⟨1, "alice", "a@x", 0, 0⟩], 2⟩
        = (.err 400 "Email already registered", ⟨[⟨1, "alice", "a@x", 0, 0⟩], 2⟩) ∧
    (create_user 3 ⟨"bob", "a@x"⟩ ⟨[⟨1, "alice", "a@x", 0, 0⟩], 2⟩).2.users.length
        = (⟨[⟨1, "alice", "a@x", 0, 0⟩], 2⟩ : DB).users.length :=
  create_duplicate_email_conflict 3 ⟨"bob", "a@x"⟩ ⟨[⟨1, "alice", "a@x", 0, 0⟩], 2⟩
    ⟨⟨1, "alice", "a@x", 0, 0⟩, by simp, rfl⟩

/-- C3: for every state and every create request with a fresh email, create
succeeds with 201, persists exactly one new row carrying the server-assigned
id, the created record has created_at equal to updated_at, and an immediate
fetch of that id returns the same name and email. -/
theorem create_fresh_email_succeeds (now : Nat) (req : UserCreate) (db : DB)
    (hfresh : ∀ u ∈ db.users, u.email ≠ req.email)
    (hids : ∀ u ∈ db.users, u.id < db.next_id) :
    ∃ u, create_user now req db
          = (.ok 201 u, ⟨db.users ++ [u], db.next_id + 1⟩) ∧
        u.id = db.next_id ∧ u.name = req.name ∧ u.email = req.email ∧
        u.created_at = now ∧ u.updated_at = now ∧ u.created_at = u.updated_at ∧
        (create_user now req db).2.users.length = db.users.length + 1 ∧
        get_user u.id (create_user now req db).2 = .ok 200 u := by
  have hfind : db.users.find? (fun v => v.email == req.email) = none :=
    List.find?_eq_none.mpr (fun u hu => by simp [hfresh u hu])
  refine ⟨⟨db.next_id, req.name, req.email, now, now⟩, ?_, rfl, rfl, rfl, rfl, rfl, rfl,
    ?_, ?_⟩
  · unfold create_user
    rw [hfind]
  · unfold create_user
    rw [hfind]
    simp
  · have h1 : db.users.find? (fun v => v.id == db.next_id) = none :=
      List.find?_eq_none.mpr (fun u hu => by simp [Nat.ne_of_lt (hids u hu)])
    unfold create_user get_user
    rw [hfind]
    simp only []
    rw [List.find?_append, h1]
    simp [List.find?]

/-- Witness for C3: a fresh create against a one-row table. -/
theorem create_fresh_email_succeeds_witness :
    ∃ u, create_user 9 ⟨"bob", "b@x"⟩ ⟨[⟨1, "alice", "a@x", 0, 0⟩], 2⟩
          = (.ok 201 u, ⟨[⟨1, "alice", "a@x", 0, 0⟩] ++ [u], 2 + 1⟩) ∧
        u.id = 2 ∧ u.name = "bob" ∧ u.email = "b@x" ∧
        u.created_at = 9 ∧ u.updated_at = 9 ∧ u.created_at = u.updated_at ∧
        (create_user 9 ⟨"bob", "b@x"⟩ ⟨[⟨1, "alice", "a@x", 0, 0⟩], 2⟩).2.users.length
          = ([⟨1, "alice", "a@x", 0, 0⟩] : List User).length + 1 ∧
        get_user u.id (create_user 9 ⟨"bob", "b@x"⟩ ⟨[⟨1, "alice", "a@x", 0, 0⟩], 2⟩).2
          = .ok 200 u :=
  create_fresh_email_succeeds 9 ⟨"bob", "b@x"⟩ ⟨[⟨1, "alice", "a@x", 0, 0⟩], 2⟩
    (by decide) (by decide)

/-! Inversion lemmas for a successful update. -/

theorem update_user_ok_inv {now user_id : Nat} {upd : UserUpdate} {db db2 : DB}
    {u2 : User} (hok : update_user now user_id upd db = (.ok 200 u2, db2)) :
    ∃ user, db.users.find? (fun v => v.id == user_id) = some user ∧
      apply_update_fields now user_id upd user db = (.ok 200 u2, db2) := by
  unfold update_user at hok
  cases hfind : db.users.find? (fun v => v.id == user_id) with
  | none => simp only [hfind] at hok; simp at hok
  | some user =>
      simp only [hfind] at hok
      refine ⟨user, rfl, ?_⟩
      split at hok
      · split at hok
        · simp at hok
        · exact hok
      · exact hok

theorem apply_update_fields_ok_inv {now user_id : Nat} {upd : UserUpdate}
    {user u2 : User} {db db2 : DB}
    (hok : apply_update_fields now user_id upd user db = (.ok 200 u2, db2)) :
    ∃ n e, upd.name.getD (some user.name) = some n ∧
      upd.email.getD (some user.email) = some e ∧
      ((db.users.eraseP (fun v => v.id == user_id)).any (fun v => v.email == e)) = false ∧
      u2 = { user with name := n, email := e, updated_at := now } ∧
      db2 = { db with
        users := replaceFirstById user_id
          ({ user with name := n, email := e, updated_at := now }) db.users } := by
  unfold apply_update_fields at hok
  cases hn : upd.name.getD (some user.name) with
  | none =>
      cases he : upd.email.getD (some user.email) with
      | none => simp only [hn, he] at hok; simp at hok
      | some e => simp only [hn, he] at hok; simp at hok
  | some n =>
      cases he : upd.email.getD (some user.email) with
      | none => simp only [hn, he] at hok; simp at hok
      | some e =>
          simp only [hn, he] at hok
          cases ha : (db.users.eraseP (fun v => v.id == user_id)).any
              (fun v => v.email == e) with
          | true => simp only [ha] at hok; simp at hok
          | false =>
              simp only [ha, Bool.false_eq_true, if_false, Prod.mk.injEq,
                ApiResult.ok.injEq] at hok
              obtain ⟨⟨-, h1⟩, h2⟩ := hok
              exact ⟨n, e, rfl, rfl, ha, h1.symm, by rw [← h2, h1]⟩

/-- C4: for every existing user and every successful update, fields absent
from the payload keep their stored values, id and created_at are not
mutated, and updated_at is refreshed to the current time, strictly above
its previous value whenever the clock has advanced. -/
theorem update_frame (now user_id : Nat) (upd : UserUpdate) (db db2 : DB)
    (user u2 : User)
    (hfind : db.users.find? (fun v => v.id == user_id) = some user)
    (hok : update_user now user_id upd db = (.ok 200 u2, db2))
    (hclock : user.updated_at < now) :
    u2.id = user.id ∧ u2.created_at = user.created_at ∧
    (upd.name = none → u2.name = user.name) ∧
    (upd.email = none → u2.email = user.email) ∧
    u2.updated_at = now ∧ user.updated_at < u2.updated_at := by
  obtain ⟨user', hfind', hap⟩ := update_user_ok_inv hok
  rw [hfind] at hfind'
  injection hfind' with hu
  subst hu
  obtain ⟨n, e, hn, he, ha, hu2, hdb2⟩ := apply_update_fields_ok_inv hap
  subst hu2
  refine ⟨rfl, rfl, ?_, ?_, rfl, hclock⟩
  · intro h0
    rw [h0] at hn
    simp only [Option.getD_none, Option.some.injEq] at hn
    exact hn.symm
  · intro h0
    rw [h0] at he
    simp only [Option.getD_none, Option.some.injEq] at he
    exact he.symm

/-- Witness for C4: updating only the name of a one-row table. -/
theorem update_frame_witness :
    (⟨1, "bobby", "b@x", 0, 5⟩ : User).id = (⟨1, "bob", "b@x", 0, 0⟩ : User).id ∧
    (⟨1, "bobby", "b@x", 0, 5⟩ : User).created_at
      = (⟨1, "bob", "b@x", 0, 0⟩ : User).created_at ∧
    ((⟨some (some "bobby"), none⟩ : UserUpdate).name = none →
      (⟨1, "bobby", "b@x", 0, 5⟩ : User).name = (⟨1, "bob", "b@x", 0, 0⟩ : User).name) ∧
    ((⟨some (some "bobby"), none⟩ : UserUpdate).email = none →
      (⟨1, "bobby", "b@x", 0, 5⟩ : User).email = (⟨1, "bob", "b@x", 0, 0⟩ : User).email) ∧
    (⟨1, "bobby", "b@x", 0, 5⟩ : User).updated_at = 5 ∧
    (⟨1, "bob", "b@x", 0, 0⟩ : User).updated_at
      < (⟨1, "bobby", "b@x", 0, 5⟩ : User).updated_at :=
  update_frame 5 1 ⟨some (some "bobby"), none⟩
    ⟨[⟨1, "bob", "b@x", 0, 0⟩], 2⟩ ⟨[⟨1, "bobby", "b@x", 0, 5⟩], 2⟩
    ⟨1, "bob", "b@x", 0, 0⟩ ⟨1, "bobby", "b@x", 0, 5⟩
    rfl rfl (by decide)

/-- Counterexample to C5 as stated: with an existing user holding the empty
string as email, updating another user to that same empty email bypasses the
Python truthiness guard, so the request fails with the 500 server error from
the database unique index instead of the 400 conflict client error. -/
theorem update_conflict_empty_email_counterexample :
    update_user 10 2 ⟨none, some (some "")⟩
        ⟨[⟨1, "alice", "", 0, 0⟩, ⟨2, "bob", "b@x", 0, 0⟩], 3⟩
      = (.err 500 "Internal server error",
         ⟨[⟨1, "alice", "", 0, 0⟩, ⟨2, "bob", "b@x", 0, 0⟩], 3⟩) := by
  rfl

/-- C5 amended: for every state with an existing user U and an update
request supplying a non-empty email that differs from the current email of
U and is held by some existing user, the update fails with the 400 conflict
client error and the state is unchanged. (An empty-string email slips past
the truthiness guard and surfaces as a 500 instead.) -/
theorem update_conflict_email_rejected (now user_id : Nat) (upd : UserUpdate)
    (db : DB) (user : User) (e : String)
    (hfind : db.users.find? (fun v => v.id == user_id) = some user)
    (hemail : upd.email = some (some e))
    (hne : e ≠ "") (hdiff : e ≠ user.email)
    (hheld : ∃ v ∈ db.users, v.email = e) :
    update_user now user_id upd db = (.err 400 "Email already registered", db) := by
  have hj : upd.email.join = some e := by rw [hemail]; rfl
  have hg : (pyTruthyStr upd.email.join && !(upd.email.join == some user.email)) = true := by
    rw [hj]
    simp [pyTruthyStr, hne, hdiff]
  have hs : (db.users.find? (fun v => some v.email == upd.email.join)).isSome = true := by
    rw [hj]
    refine List.find?_isSome.mpr ?_
    obtain ⟨v, hv, hve⟩ := hheld
    exact ⟨v, hv, by simp [hve]⟩
  unfold update_user
  simp only [hfind, hg, hs, if_true]

/-- Witness for the amended C5: a genuine conflict on a two-row table. -/
theorem update_conflict_email_rejected_witness :
    update_user 10 2 ⟨none, some (some "a@x")⟩
        ⟨[⟨1, "alice", "a@x", 0, 0⟩, ⟨2, "bob", "b@x", 0, 0⟩], 3⟩
      = (.err 400 "Email already registered",
         ⟨[⟨1, "alice", "a@x", 0, 0⟩, ⟨2, "bob", "b@x", 0, 0⟩], 3⟩) :=
  update_conflict_email_rejected 10 2 ⟨none, some (some "a@x")⟩
    ⟨[⟨1, "alice", "a@x", 0, 0⟩, ⟨2, "bob", "b@x", 0, 0⟩], 3⟩
    ⟨2, "bob", "b@x", 0, 0⟩ "a@x" rfl rfl (by decide) (by decide)
    ⟨⟨1, "alice", "a@x", 0, 0⟩, by simp, rfl⟩

/-- C6: an update supplying an email equal to the stored email of the
addressed user passes the uniqueness guard and succeeds, returning the
record with the timestamp refreshed and everything else unchanged. -/
theorem update_own_email_succeeds (now user_id : Nat) (db : DB) (user : User)
    (huniq : EmailsUnique db)
    (hfind : db.users.find? (fun v => v.id == user_id) = some user) :
    update_user now user_id ⟨none, some (some user.email)⟩ db
      = (.ok 200 ({ user with updated_at := now }),
         { db with users :=
            replaceFirstById user_id ({ user with updated_at := now }) db.users }) := by
  have hrel := rel_eraseP_of_find? (fun a b h => h.symm) huniq hfind
  have ha : ((db.users.eraseP (fun v => v.id == user_id)).any
      (fun v => v.email == user.email)) = false := by
    rw [List.any_eq_false]
    intro w hw
    simpa using (hrel w hw).symm
  unfold update_user
  simp only [hfind]
  unfold apply_update_fields
  simp only [Option.getD_none, Option.getD_some, ha, Bool.false_eq_true, if_false]
  simp [Option.join]

/-- Witness for C6: refreshing a user with its own email. -/
theorem update_own_email_succeeds_witness :
    update_user 7 1 ⟨none, some (some "a@x")⟩ ⟨[⟨1, "alice", "a@x", 0, 0⟩], 2⟩
      = (.ok 200 ⟨1, "alice", "a@x", 0, 7⟩, ⟨[⟨1, "alice", "a@x", 0, 7⟩], 2⟩) :=
  update_own_email_succeeds 7 1 ⟨[⟨1, "alice", "a@x", 0, 0⟩], 2⟩
    ⟨1, "alice", "a@x", 0, 0⟩ (by decide) rfl

/-- C7: delete removes the row permanently and returns the confirmation
message; a subsequent fetch of the same id is a 404, a second delete of the
same id is a 404, and a delete of an id with no matching row is a 404 with
the state unchanged. -/
theorem delete_removes_permanently (user_id : Nat) (db : DB)
    (hids : db.users.Pairwise (fun a b => a.id ≠ b.id)) :
    ((∃ u ∈ db.users, u.id = user_id) →
      (delete_user user_id db).1 = .ok 200 "User deleted successfully" ∧
      (delete_user user_id db).2.users.length + 1 = db.users.length ∧
      get_user user_id (delete_user user_id db).2 = .err 404 "User not found" ∧
      delete_user user_id (delete_user user_id db).2
        = (.err 404 "User not found", (delete_user user_id db).2)) ∧
    ((∀ u ∈ db.users, u.id ≠ user_id) →
      delete_user user_id db = (.err 404 "User not found", db)) := by
  constructor
  · intro hex
    obtain ⟨u0, hu0, hid0⟩ := hex
    have hfs : (db.users.find? (fun v => v.id == user_id)).isSome :=
      List.find?_isSome.mpr ⟨u0, hu0, by simp [hid0]⟩
    cases hf : db.users.find? (fun v => v.id == user_id) with
    | none => rw [hf] at hfs; simp at hfs
    | some u =>
        have hu_id : u.id = user_id := by
          have := List.find?_some hf
          simpa using this
        have hmem : u ∈ db.users := List.mem_of_find?_eq_some hf
        have hgone : ∀ w ∈ db.users.eraseP (fun v => v.id == user_id), u.id ≠ w.id :=
          rel_eraseP_of_find? (fun a b h => h.symm) hids hf
        have hnone : (db.users.eraseP (fun v => v.id == user_id)).find?
            (fun v => v.id == user_id) = none :=
          List.find?_eq_none.mpr (fun w hw => by
            have := hgone w hw
            rw [hu_id] at this
            simp [Ne.symm this])
        refine ⟨?_, ?_, ?_, ?_⟩
        · unfold delete_user; rw [hf]
        · unfold delete_user
          rw [hf]
          exact List.length_eraseP_add_one hmem (by simp [hu_id])
        · unfold delete_user get_user
          rw [hf]
          simp only [hnone]
        · unfold delete_user
          rw [hf]
          simp only [hnone]
  · intro hnone
    have hf : db.users.find? (fun v => v.id == user_id) = none :=
      List.find?_eq_none.mpr (fun w hw => by simp [hnone w hw])
    unfold delete_user
    rw [hf]

/-- Witness for C7 on a two-row table. -/
theorem delete_removes_permanently_witness :
    ((∃ u ∈ (⟨[⟨1, "alice", "a@x", 0, 0⟩, ⟨2, "bob", "b@x", 0, 0⟩], 3⟩ : DB).users,
        u.id = 2) →
      (delete_user 2 ⟨[⟨1, "alice", "a@x", 0, 0⟩, ⟨2, "bob", "b@x", 0, 0⟩], 3⟩).1
        = .ok 200 "User deleted successfully" ∧
      (delete_user 2 ⟨[⟨1, "alice", "a@x", 0, 0⟩, ⟨2, "bob", "b@x", 0, 0⟩], 3⟩).2.users.length
          + 1
        = (⟨[⟨1, "alice", "a@x", 0, 0⟩, ⟨2, "bob", "b@x", 0, 0⟩], 3⟩ : DB).users.length ∧
      get_user 2 (delete_user 2 ⟨[⟨1, "alice", "a@x", 0, 0⟩, ⟨2, "bob", "b@x", 0, 0⟩], 3⟩).2
        = .err 404 "User not found" ∧
      delete_user 2 (delete_user 2 ⟨[⟨1, "alice", "a@x", 0, 0⟩, ⟨2, "bob", "b@x", 0, 0⟩], 3⟩).2
        = (.err 404 "User not found",
           (delete_user 2 ⟨[⟨1, "alice", "a@x", 0, 0⟩, ⟨2, "bob", "b@x", 0, 0⟩], 3⟩).2)) ∧
    ((∀ u ∈ (⟨[⟨1, "alice", "a@x", 0, 0⟩, ⟨2, "bob", "b@x", 0, 0⟩], 3⟩ : DB).users,
        u.id ≠ 2) →
      delete_user 2 ⟨[⟨1, "alice", "a@x", 0, 0⟩, ⟨2, "bob", "b@x", 0, 0⟩], 3⟩
        = (.err 404 "User not found",
           ⟨[⟨1, "alice", "a@x", 0, 0⟩, ⟨2, "bob", "b@x", 0, 0⟩], 3⟩)) :=
  delete_removes_permanently 2 ⟨[⟨1, "alice", "a@x", 0, 0⟩, ⟨2, "bob", "b@x", 0, 0⟩], 3⟩
    (by decide)

/-- C8: the list operation returns the stored users with the first skip
rows skipped and at most limit rows kept; on a 5-row table, skip 0 and
limit 2 yield exactly 2 records and skip 5 and limit 2 yield the empty
array, out-of-range offsets being valid and not an error. -/
theorem get_users_pagination (skip limit : Nat) (db : DB) :
    get_users skip limit db = (db.users.drop skip).take limit ∧
    (get_users skip limit db).length ≤ limit ∧
    (db.users.length = 5 →
      (get_users 0 2 db).length = 2 ∧ get_users 5 2 db = []) := by
  refine ⟨rfl, ?_, ?_⟩
  · unfold get_users
    exact (List.length_take limit _).trans_le (Nat.min_le_left _ _)
  · intro h5
    constructor
    · unfold get_users
      rw [List.drop_zero, List.length_take, h5]
      rfl
    · unfold get_users
      rw [← h5, List.drop_length, List.take_nil]

/-- Witness for C8 on a concrete table of 5 users. -/
theorem get_users_pagination_witness :
    (get_users 0 2 ⟨[⟨1, "a", "a@x", 0, 0⟩, ⟨2, "b", "b@x", 0, 0⟩, ⟨3, "c", "c@x", 0, 0⟩,
        ⟨4, "d", "d@x", 0, 0⟩, ⟨5, "e", "e@x", 0, 0⟩], 6⟩).length = 2 ∧
    get_users 5 2 ⟨[⟨1, "a", "a@x", 0, 0⟩, ⟨2, "b", "b@x", 0, 0⟩, ⟨3, "c", "c@x", 0, 0⟩,
        ⟨4, "d", "d@x", 0, 0⟩, ⟨5, "e", "e@x", 0, 0⟩], 6⟩ = [] :=
  (get_users_pagination 0 2
    ⟨[⟨1, "a", "a@x", 0, 0⟩, ⟨2, "b", "b@x", 0, 0⟩, ⟨3, "c", "c@x", 0, 0⟩,
      ⟨4, "d", "d@x", 0, 0⟩, ⟨5, "e", "e@x", 0, 0⟩], 6⟩).2.2 rfl

/-- C9: the health check returns the database-healthy payload exactly when
the trivial query succeeds, and raises the 503 service-unavailable failure
with the full payload, including the underlying error text, as its detail
when it does not. -/
theorem health_check_reports_db_status (now : Nat) (dbQuery : Except String Unit) :
    (dbQuery = .ok () →
      health_check now dbQuery = .healthy
        ⟨now, "healthy", "FastAPI is running",
         ⟨"healthy", "Database connection is working", some "MySQL", none⟩,
         "healthy"⟩) ∧
    (∀ e, dbQuery = .error e →
      health_check now dbQuery = .unavailable
        ⟨now, "healthy", "FastAPI is running",
         ⟨"unhealthy", "Database connection failed", none, some e⟩,
         "unhealthy"⟩) := by
  constructor
  · intro h
    rw [h]
    rfl
  · intro e h
    rw [h]
    rfl

/-- Witness for C9 at both a responding and a failing database. -/
theorem health_check_reports_db_status_witness :
    health_check 3 (.ok ()) = .healthy
        ⟨3, "healthy", "FastAPI is running",
         ⟨"healthy", "Database connection is working", some "MySQL", none⟩,
         "healthy"⟩ ∧
    health_check 3 (.error "connection refused") = .unavailable
        ⟨3, "healthy", "FastAPI is running",
         ⟨"unhealthy", "Database connection failed", none, some "connection refused"⟩,
         "unhealthy"⟩ :=
  ⟨(health_check_reports_db_status 3 (.ok ())).1 rfl,
   (health_check_reports_db_status 3 (.error "connection refused")).2
     "connection refused" rfl⟩

/-- C10: an update payload that explicitly sets email to null skips the
conflict guard (null is falsy) yet keeps email in the applied field set
(explicitly-set fields survive exclude_unset), so for an existing user the
request never raises the 400 conflict error and instead fails with the
generic 500 server error from the non-nullable email column, with the
state rolled back unchanged. -/
theorem update_null_email_server_error (now user_id : Nat) (upd : UserUpdate)
    (db : DB) (user : User)
    (hfind : db.users.find? (fun v => v.id == user_id) = some user)
    (hnull : upd.email = some none) :
    update_user now user_id upd db = (.err 500 "Internal server error", db) := by
  have hj : upd.email.join = none := by rw [hnull]; rfl
  unfold update_user
  simp only [hfind, hj, pyTruthyStr, Bool.false_and, Bool.false_eq_true, if_false]
  unfold apply_update_fields
  rw [hnull]
  cases hn : upd.name.getD (some user.name) with
  | none => rfl
  | some n => rfl

/-- Witness for C10: the null-email payload against a one-row table. -/
theorem update_null_email_server_error_witness :
    update_user 4 1 ⟨none, some none⟩ ⟨[⟨1, "alice", "a@x", 0, 0⟩], 2⟩
      = (.err 500 "Internal server error", ⟨[⟨1, "alice", "a@x", 0, 0⟩], 2⟩) :=
  update_null_email_server_error 4 1 ⟨none, some none⟩
    ⟨[⟨1, "alice", "a@x", 0, 0⟩], 2⟩ ⟨1, "alice", "a@x", 0, 0⟩ rfl rfl
